import Mathlib

/-!
# Verification of `quieter.py` (msikma/quieter)

Shallow embedding of the DRO volume-reduction transcoder. Bytes are
modelled as `Nat` (inputs are bytes, `< 256`; masks are written out
exactly where the source applies them). The register bank is a
256-element `List Nat`, mirroring the Python list built in
`OPL2Quieter.__init__`. Exceptions that the Python interpreter raises
(`KeyError`, `IndexError`, `struct.error`) and the script's own
signature rejection are modelled with an explicit error type; output
already flushed before an error is kept alongside the error, mirroring
the bytes written to the output file before the interpreter aborts.
-/

/-- Errors a transcoding run can stop with. `UnmappedLevelRegister`
models the `KeyError` from `LEVEL_TO_ALGORITHM[register]`,
`CodemapIndexOutOfRange` the `IndexError` from `codemap[reg]`,
`StructError` the `struct.error` raised by `unpack` on a short read
(either the 26-byte header or a 2-byte pair), and `BadSignature` the
script's explicit rejection of a non-`DBRAWOPL` file. -/
inductive QErr where
  | UnmappedLevelRegister
  | CodemapIndexOutOfRange
  | StructError
  | BadSignature
  deriving DecidableEq, Repr

/-- Decidable equality for `Except`, used to evaluate run results on
concrete inputs. -/
instance (ε α : Type) [DecidableEq ε] [DecidableEq α] : DecidableEq (Except ε α)
  | Except.error x, Except.error y =>
    if h : x = y then Decidable.isTrue (h ▸ rfl)
    else Decidable.isFalse (fun hc => h (Except.error.inj hc))
  | Except.error _, Except.ok _ => Decidable.isFalse (fun hc => Except.noConfusion hc)
  | Except.ok _, Except.error _ => Decidable.isFalse (fun hc => Except.noConfusion hc)
  | Except.ok x, Except.ok y =>
    if h : x = y then Decidable.isTrue (h ▸ rfl)
    else Decidable.isFalse (fun hc => h (Except.ok.inj hc))

/-- `CARRIERS` tuple from the source: the nine carrier level registers. -/
def CARRIERS : List Nat := [0x43, 0x44, 0x45, 0x4B, 0x4C, 0x4D, 0x53, 0x54, 0x55]

/-- The `LEVEL_TO_ALGORITHM` dict from the source, as an association list. -/
def LEVEL_TO_ALGORITHM_TABLE : List (Nat × Nat) :=
  [(0x40, 0xC0), (0x41, 0xC0), (0x42, 0xC1), (0x43, 0xC1), (0x44, 0xC2), (0x45, 0xC2),
   (0x48, 0xC3), (0x49, 0xC3), (0x4A, 0xC4), (0x4B, 0xC4), (0x4C, 0xC5), (0x4D, 0xC5),
   (0x50, 0xC6), (0x51, 0xC6), (0x52, 0xC7), (0x53, 0xC7), (0x54, 0xC8), (0x55, 0xC8)]

/-- Dictionary lookup `LEVEL_TO_ALGORITHM[register]`; `none` models `KeyError`. -/
def LEVEL_TO_ALGORITHM (register : Nat) : Option Nat :=
  LEVEL_TO_ALGORITHM_TABLE.lookup register

/-- `OPL2Quieter.write` from the source. The register bank (`self.registers`)
is passed and returned explicitly; `f` is `self.quiet_function`. Returns the
updated bank together with the `(register, value)` pair the method returns,
or the error for the `KeyError` the Python raises on an unmapped level
register. -/
def OPL2Quieter.write (f : Nat → Nat) (registers : List Nat) (register value : Nat) :
    Except QErr (List Nat × Nat × Nat) :=
  if 0x40 ≤ register ∧ register ≤ 0x55 then
    match LEVEL_TO_ALGORITHM register with
    | none => Except.error QErr.UnmappedLevelRegister
    | some areg =>
      let algorithm := (registers.getD areg 0) &&& 0x01
      let modify_level : Bool :=
        if algorithm = 0x00 then decide (register ∈ CARRIERS) else true
      let value2 :=
        if modify_level then
          let ksl := value &&& 0xC0
          let level := f (value &&& 0x3F)
          ksl ||| (level &&& 0x3F)
        else value
      Except.ok (registers.set register value2, register, value2)
  else
    Except.ok (registers.set register value, register, value)

/-- The quiet function the source constructs at the call site
`OPL2Quieter(lambda level: max(level - level, 0))`: the lambda's
parameter shadows the configured `level` argument of `quieter_main`, so
the subtraction is of the level from itself. -/
def source_quiet_function (level : Nat) : Nat := max (level - level) 0

/-- Modelled from the spec: the documented attenuation function
`attenuation_fn(level) = max(level - configured_reduction, 0)`, the
intent the spec records for the call site above. -/
def spec_attenuation (configured_reduction level : Nat) : Nat :=
  max (level - configured_reduction) 0

/-- One iteration of the pair loop of `quieter_main` for a single raw
pair `(rawReg, val)`: bank-bit stripping, delay-code passthrough,
codemap translation (`none` models the `IndexError`) and the
state-machine write. Returns the updated register bank and the
`(orig_reg, val)` pair written to the output file. -/
def transcode_pair (f : Nat → Nat) (short_delay long_delay : Nat) (codemap : List Nat)
    (registers : List Nat) (rawReg val : Nat) :
    Except QErr (List Nat × Nat × Nat) :=
  let reg := if rawReg &&& 0x80 ≠ 0 then rawReg ^^^ 0x80 else rawReg
  if reg = short_delay ∨ reg = long_delay then
    Except.ok (registers, rawReg, val)
  else
    match codemap.get? reg with
    | none => Except.error QErr.CodemapIndexOutOfRange
    | some real_reg =>
      match OPL2Quieter.write f registers real_reg val with
      | Except.error e => Except.error e
      | Except.ok (registers2, _, val2) => Except.ok (registers2, rawReg, val2)

/-- The `while pairsRead < pairsTotal` loop of `quieter_main`, folded over
the remaining pair-stream bytes. `remaining = pairsTotal - pairsRead`.
An empty read breaks out of the loop (`if not chunk: break`); a
single leftover byte models `unpack('BB', chunk)` raising
`struct.error`. The first component is the byte sequence written to the
output file for the pairs processed so far; the second is the error the
run aborts with, if any. -/
def processPairs (f : Nat → Nat) (short_delay long_delay : Nat) (codemap : List Nat)
    (registers : List Nat) (stream : List Nat) (remaining : Nat) :
    List Nat × Option QErr :=
  match remaining with
  | 0 => ([], none)
  | n + 1 =>
    match stream with
    | [] => ([], none)
    | [_] => ([], some QErr.StructError)
    | rawReg :: val :: rest =>
      match transcode_pair f short_delay long_delay codemap registers rawReg val with
      | Except.error e => ([], some e)
      | Except.ok (registers2, orig_reg, val2) =>
        let next := processPairs f short_delay long_delay codemap registers2 rest n
        (orig_reg :: val2 :: next.1, next.2)

/-- The ASCII bytes of the magic signature `DBRAWOPL`. -/
def MAGIC : List Nat := [0x44, 0x42, 0x52, 0x41, 0x57, 0x4F, 0x50, 0x4C]

/-- Little-endian uint32 from four bytes, as `unpack` decodes `I`. -/
def le32 (a b c d : Nat) : Nat := a + 256 * b + 65536 * c + 16777216 * d

/-- The transcoding core of `quieter_main`, from the 26-byte header read
onward, over the input file's bytes. `level` is the CLI `--level`
argument, threaded exactly as the source does (the source never uses it
in the transform: the quiet function's lambda parameter shadows it).
Returns the bytes written to the output file and the error the run
aborts with, if any. The 26-byte header chunk is written to the output
before the signature check, as in the source. -/
def quieter_main (level : Nat) (input : List Nat) : List Nat × Option QErr :=
  let chunk := input.take 26
  if chunk.length ≠ 26 then ([], some QErr.StructError)
  else
    let short_delay := chunk.getD 23 0
    let long_delay := chunk.getD 24 0
    let codemapLength := chunk.getD 25 0
    let pairsTotal :=
      le32 (chunk.getD 12 0) (chunk.getD 13 0) (chunk.getD 14 0) (chunk.getD 15 0)
    if chunk.take 8 ≠ MAGIC then (chunk, some QErr.BadSignature)
    else
      let rest := input.drop 26
      let codemap := rest.take codemapLength
      let stream := rest.drop codemapLength
      let result :=
        processPairs source_quiet_function short_delay long_delay codemap
          (List.replicate 256 0) stream pairsTotal
      (chunk ++ codemap ++ result.1, result.2)

/-! ## Helper lemmas -/

set_option maxRecDepth 4096 in
/-- For byte-valued raw registers, the source's bank-bit stripping
(`if reg & 0x80: reg ^= 0x80`) agrees with masking to the low 7 bits. -/
theorem bank_strip_eq_mask :
    ∀ r < 256, (if r &&& 0x80 ≠ 0 then r ^^^ 0x80 else r) = r &&& 0x7F := by
  decide

/-- The pair loop on an exhausted stream emits nothing and no error. -/
theorem processPairs_nil (f : Nat → Nat) (sd ld : Nat) (cm regs : List Nat) (n : Nat) :
    processPairs f sd ld cm regs [] n = ([], none) := by
  cases n <;> rfl

/-- Every key of the level-to-algorithm table is a level register. -/
theorem level_register_range {r areg : Nat} (h : LEVEL_TO_ALGORITHM r = some areg) :
    0x40 ≤ r ∧ r ≤ 0x55 := by
  have hs : (LEVEL_TO_ALGORITHM_TABLE.lookup r).isSome := by
    unfold LEVEL_TO_ALGORITHM at h
    rw [h]
    rfl
  rw [List.lookup_isSome_iff] at hs
  obtain ⟨p, hp, hbeq⟩ := hs
  have hb : ∀ p ∈ LEVEL_TO_ALGORITHM_TABLE, 0x40 ≤ p.1 ∧ p.1 ≤ 0x55 := by decide
  have hr : r = p.1 := by simpa using hbeq
  rw [hr]
  exact hb p hp

/-- Recombining preserved KSL bits with a 6-bit-masked level keeps the
top two bits of the original value, whatever the level computed. -/
theorem ksl_recombine_and (a b : Nat) :
    ((a &&& 0xC0) ||| (b &&& 0x3F)) &&& 0xC0 = a &&& 0xC0 := by
  rw [Nat.and_comm _ 0xC0, Nat.and_or_distrib_left,
    Nat.and_comm 0xC0 (a &&& 0xC0), Nat.and_assoc,
    Nat.and_comm 0xC0 (b &&& 0x3F), Nat.and_assoc]
  have h1 : (0xC0 &&& 0xC0 : Nat) = 0xC0 := rfl
  have h2 : (0x3F &&& 0xC0 : Nat) = 0 := rfl
  rw [h1, h2, Nat.and_zero, Nat.or_zero]

/-! ## Concrete inputs used as counterexamples / failing inputs -/

/-- A minimal valid DRO file: `DBRAWOPL` header, version 0.0, 1 pair,
0 ms, OPL2, short delay code 0, long delay code 1, 3-entry codemap
`[0x00, 0x00, 0x43]`, and the single pair `(0x02, 0x25)` targeting the
carrier level register 0x43 through codemap index 2. -/
def file_one_pair : List Nat :=
  MAGIC ++ [0, 0, 0, 0, 1, 0, 0, 0, 0, 0, 0, 0, 0, 0, 0, 0, 1, 3] ++
  [0x00, 0x00, 0x43] ++ [0x02, 0x25]

/-! ## Claim theorems -/

/-- **C1.** The claim says the transcoder attenuates the low 6 bits of a
modified level pair by `max(level - configured_reduction, 0)`. The code
does not: the quiet function built at the `OPL2Quieter(...)` call site
shadows the configured reduction, so it returns 0 for every level. At
the failing input (carrier register 0x43 under the zero-initialized
bank, value 0x25, configured reduction 5) the code produces value 0x00,
while the claimed formula produces 0x20. -/
theorem C1_attenuation_constant_zero :
    (OPL2Quieter.write source_quiet_function (List.replicate 256 0) 0x43 0x25).map
      (fun t => t.2.2) = Except.ok 0x00 ∧
    (0x25 &&& 0xC0) ||| (spec_attenuation 5 (0x25 &&& 0x3F) &&& 0x3F) = 0x20 ∧
    (0x00 : Nat) ≠ 0x20 := by
  constructor
  · rfl
  · constructor <;> decide

/-- **C2.** The claim says a run with `attenuation_reduction = 0` is
byte-identical to its input on every valid file. On `file_one_pair` the
run completes without error but zeroes the level byte (0x25 becomes
0x00), because the configured reduction — 0 here — never reaches the
quiet function. -/
theorem C2_zero_reduction_not_identity :
    (quieter_main 0 file_one_pair).2 = none ∧
    (quieter_main 0 file_one_pair).1 ≠ file_one_pair := by
  constructor
  · rfl
  · decide

/-- **C4.** Each level register absent from `LEVEL_TO_ALGORITHM`
(0x46, 0x47, 0x4E, 0x4F) makes `write` fail with
`UnmappedLevelRegister` — no state is stored and no pair is returned —
for every quiet function, register bank and value. -/
theorem C4_unmapped_level_register_fails (f : Nat → Nat) (registers : List Nat)
    (r v : Nat) (hr : r = 0x46 ∨ r = 0x47 ∨ r = 0x4E ∨ r = 0x4F) :
    OPL2Quieter.write f registers r v = Except.error QErr.UnmappedLevelRegister := by
  rcases hr with h | h | h | h <;> subst h <;> rfl

/-- Witness for C4 at register 0x46. -/
theorem C4_unmapped_level_register_fails_witness :
    OPL2Quieter.write source_quiet_function (List.replicate 256 0) 0x46 0x12 =
      Except.error QErr.UnmappedLevelRegister :=
  C4_unmapped_level_register_fails source_quiet_function (List.replicate 256 0)
    0x46 0x12 (Or.inl rfl)

/-- Shape of the value `write` returns: either the input value
(passthrough) or the KSL bits recombined with the masked quiet-function
output. -/
theorem write_value_shape (f : Nat → Nat) (registers : List Nat) (r v : Nat)
    (res : List Nat × Nat × Nat)
    (hok : OPL2Quieter.write f registers r v = Except.ok res) :
    res.2.2 = v ∨ res.2.2 = (v &&& 0xC0) ||| (f (v &&& 0x3F) &&& 0x3F) := by
  simp only [OPL2Quieter.write] at hok
  split at hok
  · split at hok
    · exact absurd hok (by simp)
    · rw [Except.ok.injEq] at hok
      subst hok
      dsimp only
      split
      · split
        · right; rfl
        · left; rfl
      · right; rfl
  · rw [Except.ok.injEq] at hok
    subst hok
    left
    rfl

/-- **C3 (counterexample).** A pair whose masked register 0x02 is below
0x40 and differs from both delay codes (5 and 6) is nonetheless emitted
with a changed value byte, because the codemap translates index 2 to the
level register 0x43: input value 0x25 is emitted as 0x00. -/
theorem C3_masked_register_not_enough :
    (0x02 &&& 0x7F : Nat) < 0x40 ∧ (0x02 : Nat) ≠ 5 ∧ (0x02 : Nat) ≠ 6 ∧
    (transcode_pair source_quiet_function 5 6 [0x00, 0x00, 0x43]
        (List.replicate 256 0) 0x02 0x25).map (fun t => t.2.2) = Except.ok 0x00 ∧
    (0x00 : Nat) ≠ 0x25 := by
  refine ⟨by decide, by decide, by decide, rfl, by decide⟩

/-- **C3 (amended).** Classification happens after codemap translation:
a pair whose masked register is not a delay code and whose
codemap-translated register lies outside `[0x40, 0x55]` is emitted with
an identical value byte, for every quiet function (hence any reduction
amount) and register bank. -/
theorem C3_translated_nonlevel_passthrough (f : Nat → Nat) (sd ld : Nat)
    (codemap registers : List Nat) (rawReg val real_reg : Nat)
    (hbyte : rawReg < 256)
    (hnd : ¬(rawReg &&& 0x7F = sd ∨ rawReg &&& 0x7F = ld))
    (hcm : codemap.get? (rawReg &&& 0x7F) = some real_reg)
    (hnl : ¬(0x40 ≤ real_reg ∧ real_reg ≤ 0x55)) :
    transcode_pair f sd ld codemap registers rawReg val =
      Except.ok (registers.set real_reg val, rawReg, val) := by
  simp only [transcode_pair]
  rw [bank_strip_eq_mask rawReg hbyte, if_neg hnd, hcm]
  simp only [OPL2Quieter.write, if_neg hnl]

/-- Witness for C3 (amended): codemap index 2 translated to the
non-level register 0x07; value 0x25 passes through unchanged. -/
theorem C3_translated_nonlevel_passthrough_witness :
    transcode_pair source_quiet_function 5 6 [0x00, 0x00, 0x07]
        (List.replicate 256 0) 0x02 0x25 =
      Except.ok ((List.replicate 256 0).set 0x07 0x25, 0x02, 0x25) :=
  C3_translated_nonlevel_passthrough source_quiet_function 5 6 [0x00, 0x00, 0x07]
    (List.replicate 256 0) 0x02 0x25 0x07 (by decide) (by decide) (by decide) (by decide)

/-- **C6.** A mapped level register whose governing algorithm register
has a clear least-significant bit (FM mode) and which is not a carrier
is left untouched: the input value is stored unchanged and the returned
pair is `(register, value)` unmodified. -/
theorem C6_fm_modulator_untouched (f : Nat → Nat) (registers : List Nat)
    (r v areg : Nat) (hmap : LEVEL_TO_ALGORITHM r = some areg)
    (halgo : (registers.getD areg 0) &&& 0x01 = 0)
    (hcar : r ∉ CARRIERS) :
    OPL2Quieter.write f registers r v = Except.ok (registers.set r v, r, v) := by
  have hrange := level_register_range hmap
  have hcar2 : decide (r ∈ CARRIERS) = false := by simpa using hcar
  simp only [OPL2Quieter.write, hmap, if_pos hrange, halgo, hcar2]
  simp

/-- Witness for C6: modulator register 0x40 on the zero-initialized
bank (algorithm register 0xC0 holds 0, FM mode). -/
theorem C6_fm_modulator_untouched_witness :
    OPL2Quieter.write source_quiet_function (List.replicate 256 0) 0x40 0x25 =
      Except.ok ((List.replicate 256 0).set 0x40 0x25, 0x40, 0x25) :=
  C6_fm_modulator_untouched source_quiet_function (List.replicate 256 0) 0x40 0x25 0xC0
    rfl (by decide) (by decide)

/-- **C7.** A pair whose masked register equals the short or long delay
code is emitted byte-identical — both register and value bytes — with
the register bank untouched, for every quiet function, codemap and
bank: delays bypass codemap translation and the state machine. -/
theorem C7_delay_passthrough (f : Nat → Nat) (sd ld : Nat)
    (codemap registers : List Nat) (rawReg val : Nat) (hbyte : rawReg < 256)
    (hd : rawReg &&& 0x7F = sd ∨ rawReg &&& 0x7F = ld) :
    transcode_pair f sd ld codemap registers rawReg val =
      Except.ok (registers, rawReg, val) := by
  simp only [transcode_pair]
  rw [bank_strip_eq_mask rawReg hbyte, if_pos hd]

/-- Witness for C7: bank-1 pair `(0x83, 0x77)` whose masked register
0x03 equals the short delay code; 0x03 would also be a valid index into
the four-entry codemap, yet the pair passes through untouched. -/
theorem C7_delay_passthrough_witness :
    transcode_pair source_quiet_function 0x03 0x04 [0x40, 0x41, 0x42, 0x43]
        (List.replicate 256 0) 0x83 0x77 =
      Except.ok (List.replicate 256 0, 0x83, 0x77) :=
  C7_delay_passthrough source_quiet_function 0x03 0x04 [0x40, 0x41, 0x42, 0x43]
    (List.replicate 256 0) 0x83 0x77 (by decide) (Or.inl (by decide))

/-- **C8.** Whenever `write` changes the value byte, the top two bits of
the output equal the top two bits of the input, for every quiet
function — including ones returning results above 63, since the result
is masked to 6 bits before recombination. -/
theorem C8_ksl_bits_preserved (f : Nat → Nat) (registers : List Nat) (r v : Nat)
    (res : List Nat × Nat × Nat)
    (hok : OPL2Quieter.write f registers r v = Except.ok res)
    (hmod : res.2.2 ≠ v) :
    res.2.2 &&& 0xC0 = v &&& 0xC0 := by
  rcases write_value_shape f registers r v res hok with h | h
  · exact absurd h hmod
  · rw [h]
    exact ksl_recombine_and v (f (v &&& 0x3F))

set_option maxRecDepth 8192 in
/-- Witness for C8: quiet function returning 0x46 (above 63) on the
carrier register 0x43, value 0x01 modified to 0x06. -/
theorem C8_ksl_bits_preserved_witness :
    (6 : Nat) &&& 0xC0 = (1 : Nat) &&& 0xC0 :=
  C8_ksl_bits_preserved (fun l => l + 0x45) (List.replicate 256 0) 0x43 0x01
    ((List.replicate 256 0).set 0x43 6, 0x43, 6) (by decide) (by decide)

/-- The number of loop iterations beyond the available pairs does not
matter: two runs whose remaining-pair budgets both cover the whole
stream behave identically. -/
theorem processPairs_count_indep (f : Nat → Nat) (sd ld : Nat) (cm : List Nat) :
    ∀ n m (regs stream : List Nat), stream.length ≤ 2 * n → stream.length ≤ 2 * m →
      processPairs f sd ld cm regs stream n = processPairs f sd ld cm regs stream m := by
  intro n
  induction n with
  | zero =>
    intro m regs stream hn _
    have hnil : stream = [] := by
      cases stream with
      | nil => rfl
      | cons a t => simp at hn
    subst hnil
    rw [processPairs_nil, processPairs_nil]
  | succ n ih =>
    intro m regs stream hn hm
    cases stream with
    | nil => rw [processPairs_nil, processPairs_nil]
    | cons a t =>
      cases t with
      | nil =>
        cases m with
        | zero => simp at hm
        | succ m => rfl
      | cons b rest =>
        cases m with
        | zero =>
          simp only [List.length_cons] at hm
          omega
        | succ m =>
          simp only [processPairs]
          cases htp : transcode_pair f sd ld cm regs a b with
          | error e => rfl
          | ok res =>
            obtain ⟨regs2, orig, val2⟩ := res
            have h1 : rest.length ≤ 2 * n := by
              simp only [List.length_cons] at hn
              omega
            have h2 : rest.length ≤ 2 * m := by
              simp only [List.length_cons] at hm
              omega
            dsimp only
            rw [ih m regs2 rest h1 h2]

/-- A truncated valid file used against C5: the header promises 2
pairs but the pair stream holds 3 bytes — one full pair and one
leftover byte. -/
def file_truncated : List Nat :=
  MAGIC ++ [0, 0, 0, 0, 2, 0, 0, 0, 0, 0, 0, 0, 0, 0, 0, 0, 1, 3] ++
  [0x00, 0x00, 0x43] ++ [0x02, 0x25, 0x02]

/-- **C5 (counterexample).** An input whose pair stream has fewer bytes
(3) than the promised 2 pairs (4 bytes) does not always stop
gracefully: a leftover half pair makes `unpack('BB', chunk)` raise, so
the run aborts with an error rather than treating the short read as end
of input. -/
theorem C5_half_pair_aborts :
    (file_truncated.drop 29).length < 2 * 2 ∧
    (quieter_main 5 file_truncated).2 = some QErr.StructError ∧
    some QErr.StructError ≠ (none : Option QErr) := by
  refine ⟨by decide, rfl, by decide⟩

/-- **C5 (amended).** When the pair stream ends exactly at a pair
boundary (even byte count) with fewer pairs than the header promises,
the run is identical to one whose header promises exactly the pairs
actually present: the stop is graceful and the output holds exactly the
pairs actually read, each fully processed. -/
theorem C5_even_truncation_graceful (f : Nat → Nat) (sd ld : Nat)
    (cm regs stream : List Nat) (n : Nat)
    (heven : stream.length % 2 = 0) (hshort : stream.length ≤ 2 * n) :
    processPairs f sd ld cm regs stream n =
      processPairs f sd ld cm regs stream (stream.length / 2) := by
  apply processPairs_count_indep f sd ld cm n (stream.length / 2) regs stream hshort
  omega

/-- Witness for C5 (amended): a 2-byte stream (1 pair) under a header
promising 5 pairs behaves like one promising exactly 1 pair. -/
theorem C5_even_truncation_graceful_witness :
    processPairs source_quiet_function 0 1 [0x00, 0x00, 0x43]
        (List.replicate 256 0) [0x02, 0x25] 5 =
      processPairs source_quiet_function 0 1 [0x00, 0x00, 0x43]
        (List.replicate 256 0) [0x02, 0x25] 1 :=
  C5_even_truncation_graceful source_quiet_function 0 1 [0x00, 0x00, 0x43]
    (List.replicate 256 0) [0x02, 0x25] 5 (by decide) (by decide)

/-- A run on an input of at least 26 bytes whose signature is wrong
writes exactly the copied header and stops with `BadSignature`. -/
theorem quieter_main_bad_signature (level : Nat) (input : List Nat)
    (hlen : 26 ≤ input.length) (hsig : input.take 8 ≠ MAGIC) :
    quieter_main level input = (input.take 26, some QErr.BadSignature) := by
  have hchunk : (input.take 26).length = 26 := by
    rw [List.length_take]
    omega
  have htake8 : (input.take 26).take 8 = input.take 8 := by
    simp [List.take_take]
  simp only [quieter_main]
  rw [if_neg (fun h => h hchunk), if_pos (by rw [htake8]; exact hsig)]

/-- A 9-byte file whose first 8 bytes are not `DBRAWOPL`. -/
def file_bad_sig_short : List Nat := [0x4E, 0x4F, 0x54, 0x44, 0x42, 0x52, 0x41, 0x57, 0x21]

/-- `file_bad_sig_short` padded to the full 26-byte header size. -/
def file_bad_sig_full : List Nat := file_bad_sig_short ++ List.replicate 17 0

/-- **C9 (counterexample).** On a 9-byte input whose first 8 bytes
differ from `DBRAWOPL`, the run fails in `unpack` on the short header
read, not with the signature error — the signature check is never
reached. -/
theorem C9_short_input_dies_before_signature_check :
    file_bad_sig_short.take 8 ≠ MAGIC ∧
    quieter_main 5 file_bad_sig_short = ([], some QErr.StructError) ∧
    QErr.StructError ≠ QErr.BadSignature := by
  refine ⟨by decide, rfl, by decide⟩

/-- **C9 (amended).** Every input of at least 26 bytes whose first 8
bytes differ from `DBRAWOPL` is rejected with `BadSignature`, and no
pair data is written: the output is exactly the 26 copied header
bytes. -/
theorem C9_bad_signature_rejected (level : Nat) (input : List Nat)
    (hlen : 26 ≤ input.length) (hsig : input.take 8 ≠ MAGIC) :
    (quieter_main level input).2 = some QErr.BadSignature ∧
    (quieter_main level input).1 = input.take 26 := by
  rw [quieter_main_bad_signature level input hlen hsig]
  exact ⟨rfl, rfl⟩

/-- Witness for C9 (amended) on the padded 26-byte bad-signature file. -/
theorem C9_bad_signature_rejected_witness :
    (quieter_main 5 file_bad_sig_full).2 = some QErr.BadSignature ∧
    (quieter_main 5 file_bad_sig_full).1 = file_bad_sig_full.take 26 :=
  C9_bad_signature_rejected 5 file_bad_sig_full (by decide) (by decide)

/-- **C10.** When the signature check fails, the output is not empty:
the 26 header bytes were already written before validation, so a
rejected run leaves exactly the copied header in the output. -/
theorem C10_header_flushed_before_rejection (level : Nat) (input : List Nat)
    (hlen : 26 ≤ input.length) (hsig : input.take 8 ≠ MAGIC) :
    (quieter_main level input).1 = input.take 26 ∧
    (quieter_main level input).1 ≠ [] := by
  rw [quieter_main_bad_signature level input hlen hsig]
  refine ⟨rfl, ?_⟩
  show input.take 26 ≠ []
  intro h
  have hlen26 : (input.take 26).length = 26 := by
    rw [List.length_take]
    omega
  rw [h] at hlen26
  simp at hlen26

/-- Witness for C10 on the padded 26-byte bad-signature file. -/
theorem C10_header_flushed_before_rejection_witness :
    (quieter_main 5 file_bad_sig_full).1 = file_bad_sig_full.take 26 ∧
    (quieter_main 5 file_bad_sig_full).1 ≠ [] :=
  C10_header_flushed_before_rejection 5 file_bad_sig_full (by decide) (by decide)
